import Mathlib

/-!
Verification development for the jaide CLI front end
(src/jaide/jaide_click.py).

The Python source is shallow-embedded below.  Pure string manipulation
(path splitting, payload scraping, validator regex searches) is
translated into structurally recursive functions on character lists, so
every definition is executable and kernel-reducible.  Effectful code
(echoing to the console, opening and writing files, submitting work to
the multiprocessing pool) is modelled as an explicit trace of events;
Python exceptions that escape a function are modelled with Except.
-/

namespace Jaide

/-! ## Character and list primitives mirroring Python string operations -/

/-- Test whether the list pat is a prefix of s (Python str.startswith). -/
def beginsWith : List Char → List Char → Bool
  | _, [] => true
  | [], _ :: _ => false
  | a :: as, b :: bs => a == b && beginsWith as bs

/-- Does predicate pat hold of some suffix of s?  This is the embedding of
an unanchored re.search: the pattern may match starting at any index. -/
def searchAnywhere (pat : List Char → Bool) : List Char → Bool
  | [] => pat []
  | c :: cs => pat (c :: cs) || searchAnywhere pat cs

/-- Substring containment: sep occurs in s (Python operator in). -/
def containsSub (sep s : List Char) : Bool :=
  searchAnywhere (fun t => beginsWith t sep) s

/-- Split at the first occurrence of sep: returns (before, after) where
after starts right past the separator, or none if sep does not occur.
Iterating this reproduces Python str.split for a non-empty separator. -/
def splitFirst (sep : List Char) : List Char → Option (List Char × List Char)
  | [] => if beginsWith [] sep then some ([], []) else none
  | c :: cs =>
    if beginsWith (c :: cs) sep then some ([], List.drop sep.length (c :: cs))
    else
      match splitFirst sep cs with
      | none => none
      | some (pre, post) => some (c :: pre, post)

/-- Take characters up to the first newline (Python s.split('\n')[0]). -/
def firstLine : List Char → List Char
  | [] => []
  | c :: cs => if c == '\n' then [] else c :: firstLine cs

/-- Python str.strip() whitespace set (ASCII). -/
def isPySpace (c : Char) : Bool :=
  c == ' ' || c == '\t' || c == '\n' || c == '\r' || c == '\x0b' || c == '\x0c'

/-- Python str.strip(): drop leading and trailing whitespace. -/
def pyStrip (s : List Char) : List Char :=
  ((s.dropWhile isPySpace).reverse.dropWhile isPySpace).reverse

/-- ASCII lower-casing of one character (Python str.lower on ASCII input). -/
def lowerChar (c : Char) : Char :=
  if c.toNat ≥ 65 && c.toNat ≤ 90 then Char.ofNat (c.toNat + 32) else c

/-- Python str.lower (ASCII fragment, which is all the source compares). -/
def pyLower (s : String) : String := String.mk (s.data.map lowerChar)

/-- Lexicographic comparison of character lists by code point, the order
Python uses to compare and sort strings. -/
def charListLe : List Char → List Char → Bool
  | [], _ => true
  | _ :: _, [] => false
  | a :: as, b :: bs =>
    if a.toNat < b.toNat then true
    else if b.toNat < a.toNat then false
    else charListLe as bs

/-- String order used by Python sorted(). -/
def strLe (a b : String) : Bool := charListLe a.data b.data

/-- Insert a string into a list, keeping it sorted under strLe. -/
def insertSorted (x : String) : List String → List String
  | [] => [x]
  | y :: ys => if strLe x y then x :: y :: ys else y :: insertSorted x ys

/-- Insertion sort on strings: the embedding of Python sorted(). -/
def sortStrings : List String → List String
  | [] => []
  | x :: xs => insertSorted x (sortStrings xs)

/-- Decidable check that a list of strings is sorted under strLe. -/
def isSortedStr : List String → Bool
  | [] => true
  | [_] => true
  | a :: b :: t => strLe a b && isSortedStr (b :: t)

/-! ## POSIX path manipulation used by write_out (os.path.split / join) -/

/-- Index of the last slash in a path, if any (Python str.rfind('/')). -/
def lastSlash : List Char → Option Nat
  | [] => none
  | c :: cs =>
    match lastSlash cs with
    | some i => some (i + 1)
    | none => if c == '/' then some 0 else none

/-- All characters are slashes. -/
def allSlashes (l : List Char) : Bool := l.all (fun c => c == '/')

/-- Drop trailing slashes (Python str.rstrip('/')). -/
def rstripSlashes (l : List Char) : List Char :=
  (l.reverse.dropWhile (fun c => c == '/')).reverse

/-- Embedding of posixpath.split: split a path into (head, tail) at the
last slash; the head keeps no trailing slash unless it is all slashes. -/
def posixSplit (p : String) : String × String :=
  match lastSlash p.data with
  | none => ("", p)
  | some i =>
    let headL := p.data.take (i + 1)
    let tailL := p.data.drop (i + 1)
    (String.mk (if allSlashes headL then headL else rstripSlashes headL),
     String.mk tailL)

/-- Embedding of posixpath.join restricted to two components, which is
how write_out calls it. -/
def posixJoin (a b : String) : String :=
  if b.data.head? == some '/' then b
  else if a.data == [] || a.data.getLast? == some '/' then a ++ b
  else a ++ "/" ++ b

/-! ## Result routing: write_out (jaide_click.py lines 151-189) -/

/-- Observable side effects performed by write_out. -/
inductive Effect
  /-- click.echo(output): payload written verbatim to stdout. -/
  | echoConsole (s : String)
  /-- click.echo(output, nl=False, file=out_file): payload appended to a file. -/
  | fileWrite (p : String) (s : String)
  /-- secho(msg, 'error'): an error report on the console. -/
  | echoErr (s : String)
  /-- secho(msg): an informational line on the console. -/
  | echoMsg (s : String)
deriving DecidableEq

/-- Python exceptions that escape write_out uncaught. -/
inductive PyError
  | indexError
deriving DecidableEq

/-- The marker write_out scrapes the payload for: output.split('device: '). -/
def devMarker : List Char := ("device: ").data

/-- Embedding of the host-identity extraction in write_out line 173:
ip = output.split('device: ')[1].split('\n')[0].strip().
Index [1] of the Python split is the text between the first and second
occurrence of the marker (to the end when the marker occurs once); when
the marker does not occur at all the index raises IndexError (none here). -/
def extractIp (output : String) : Option String :=
  match splitFirst devMarker output.data with
  | none => none
  | some (_, rest) =>
    match splitFirst devMarker rest with
    | none => some (String.mk (pyStrip (firstLine rest)))
    | some (pre, _) => some (String.mk (pyStrip (firstLine pre)))

/-- The mode test in write_out line 174: mode in ['m', 'multiple']. -/
def multipleMode (mode : String) : Bool := ["m", "multiple"].contains mode

/-- Destination-path derivation in write_out lines 174-178: in multiple
mode the ip plus an underscore is put in front of the base filename. -/
def destFor (mode destFile ip : String) : String :=
  if multipleMode mode then
    posixJoin (posixSplit destFile).1 (ip ++ "_" ++ (posixSplit destFile).2)
  else destFile

/-- Embedding of write_out.  The openRes oracle stands for the file
system: openRes p = none means open(p, 'a+b') succeeds, some e means it
raises IOError(e).  The returned list is the trace of effects; an
Except.error result is an exception escaping write_out, performed
effects discarded with it (nothing was written before the ip extraction). -/
def write_out (openRes : String → Option String) (toFile : Option (String × String))
    (output : String) : Except PyError (List Effect) :=
  match toFile with
  | none => Except.ok [Effect.echoConsole output]
  | some (mode, destFile) =>
    match extractIp output with
    | none => Except.error PyError.indexError
    | some ip =>
      match openRes (destFor mode destFile ip) with
      | some e =>
        Except.ok
          [Effect.echoErr ("Could not open output file \x27" ++ destFor mode destFile ip ++
              "\x27 for writing. Output would have been:\n" ++ output),
           Effect.echoErr ("Here is the error for opening the output file:" ++ e)]
      | none =>
        Except.ok
          [Effect.fileWrite (destFor mode destFile ip) output,
           Effect.echoMsg (ip ++ " output appended to: " ++ destFor mode destFile ip)]

/-! ## Validators (jaide_click.py lines 53-73 and 192-203) -/

/-- Message raised by write_validate for a bad mode. -/
def writeModeMsg : String :=
  "The first argument of the -w/--write option must specifies whether to write" ++
  " to one file per device, or all device output to a single file. Valid options" ++
  " are \"s\", \"single\", \"m\", and \"multiple\""

/-- Embedding of write_validate: validates the -w option value and
returns what is stored into ctx.obj['out'] (none selects console
output).  The default sentinel ("default", "default") means the option
was omitted.  An Except.error is a click.BadParameter. -/
def write_validate (value : String × String) :
    Except String (Option (String × String)) :=
  if value ≠ ("default", "default") then
    if (["s", "single", "m", "multiple"].contains (pyLower value.1)) = false then
      Except.error writeModeMsg
    else Except.ok (some (pyLower value.1, value.2))
  else Except.ok none

/-- Message raised by at_time_validate. -/
def atTimeMsg : String :=
  "A commit at time must be in one of the two formats: \x27hh:mm[:ss]\x27 or " ++
  "\x27yyyy-mm-dd hh:mm[:ss]\x27 (seconds are optional)."

/-- Digit character class, re \d on the ASCII inputs involved. -/
def isPyDigit (c : Char) : Bool := 48 ≤ c.toNat && c.toNat ≤ 57

/-- Character range class such as [0-5]. -/
def inCharRange (c lo hi : Char) : Bool := lo.toNat ≤ c.toNat && c.toNat ≤ hi.toNat

/-- A match of the regex ([0-2]\d)(:[0-5]\d){1,2} begins here: the {1,2}
repetition succeeds with one repetition, so a search hit exists at a
position exactly when [0-2]\d:[0-5]\d matches at that position. -/
def timeCoreAt : List Char → Bool
  | a :: b :: c :: d :: e :: _ =>
    inCharRange a '0' '2' && isPyDigit b && c == ':' && inCharRange d '0' '5' &&
      isPyDigit e
  | _ => false

/-- A match of \d{4}-[01]\d-[0-3]\d [0-2]\d:[0-5]\d(:[0-5]\d)? begins
here: the trailing group is optional, so only the mandatory 16-character
core decides whether a search hit exists. -/
def dateCoreAt : List Char → Bool
  | a :: b :: c :: d :: e :: f :: g :: h :: i :: j :: k :: l :: m :: n :: o :: q :: _ =>
    isPyDigit a && isPyDigit b && isPyDigit c && isPyDigit d &&
      e == '-' && inCharRange f '0' '1' && isPyDigit g &&
      h == '-' && inCharRange i '0' '3' && isPyDigit j &&
      k == ' ' && inCharRange l '0' '2' && isPyDigit m &&
      n == ':' && inCharRange o '0' '5' && isPyDigit q
  | _ => false

/-- Embedding of at_time_validate: value None is accepted as commit
immediately; otherwise the two unanchored re.search calls of lines
196-198 decide acceptance, and failure of both raises BadParameter. -/
def at_time_validate (value : Option String) : Except String (Option String) :=
  match value with
  | none => Except.ok none
  | some v =>
    if !searchAnywhere timeCoreAt v.data && !searchAnywhere dateCoreAt v.data then
      Except.error atTimeMsg
    else Except.ok (some v)

/-! ## Command-name resolver: AliasedGroup.get_command (lines 38-50) -/

/-- Outcome of resolving a typed command name. -/
inductive Resolved
  /-- A command was returned. -/
  | found (name : String)
  /-- get_command returned None. -/
  | notFound
  /-- ctx.fail listing the sorted candidates (click.UsageError). -/
  | ambiguous (candidates : List String)
deriving DecidableEq

/-- click.Group.list_commands: the registered names, sorted. -/
def list_commands (registered : List String) : List String := sortStrings registered

/-- The candidate computation in lines 43-44: every registered name that
starts with the typed name. -/
def prefMatches (registered : List String) (cmdName : String) : List String :=
  (list_commands registered).filter (fun x => beginsWith x.data cmdName.data)

/-- Embedding of AliasedGroup.get_command: exact lookup first
(click.Group.get_command is a dict lookup on the registered names), then
the startswith candidates decide between None, a unique command, and
ctx.fail with the sorted candidate list. -/
def get_command (registered : List String) (cmdName : String) : Resolved :=
  if registered.contains cmdName then Resolved.found cmdName
  else
    match prefMatches registered cmdName with
    | [] => Resolved.notFound
    | [m] => Resolved.found m
    | a :: b :: t => Resolved.ambiguous (sortStrings (a :: b :: t))

/-! ## Dispatch loops of the subcommand handlers (lines 279-606) -/

/-- The ten registered subcommands of the click group. -/
inductive Subcommand
  | commit
  | compare
  | pull
  | push
  | operational
  | deviceInfo
  | diffConfig
  | healthCheck
  | interfaceErrors
  | shell
deriving DecidableEq

/-- Events of one handler invocation involving the multiprocessing pool
and the device-session provider wrap.open_connection. -/
inductive PoolEvent
  /-- multiprocessing.Pool(multiprocessing.cpu_count() * 2). -/
  | createPool (size : Nat)
  /-- mp_pool.apply_async(wrap.open_connection, args=(ip, ...), callback=write_out). -/
  | submit (host : String)
  /-- write_out(wrap.open_connection(ip, ...)): a synchronous inline call
  in the main process, its result routed before the loop continues. -/
  | inlineCall (host : String)
  /-- mp_pool.close(). -/
  | close
  /-- mp_pool.join(): wait for every submitted task to finish. -/
  | join
deriving DecidableEq

/-- How one loop iteration contacts a host: the commit handler (lines
280-291) calls wrap.open_connection synchronously and routes the result
itself, every other handler submits the call to the pool with write_out
as completion callback. -/
def perHostEvent (s : Subcommand) : String → PoolEvent :=
  match s with
  | Subcommand.commit => PoolEvent.inlineCall
  | _ => PoolEvent.submit

/-- The full pool trace of one handler: create the pool sized at twice
the core count, one provider contact per host in list order, then
close and join. -/
def handlerTrace (cpu : Nat) (s : Subcommand) (hosts : List String) : List PoolEvent :=
  PoolEvent.createPool (cpu * 2) ::
    (hosts.map (perHostEvent s) ++ [PoolEvent.close, PoolEvent.join])

/-- The host contacted by an event, when it contacts one. -/
def eventHost : PoolEvent → Option String
  | PoolEvent.submit h => some h
  | PoolEvent.inlineCall h => some h
  | _ => none

/-- The sequence of wrap.open_connection invocations of one handler. -/
def handlerCalls (cpu : Nat) (s : Subcommand) (hosts : List String) : List String :=
  (handlerTrace cpu s hosts).filterMap eventHost

/-- Pairing each host with the value its own provider call returns: the
embedding of the per-host loop in which the result of the call on ip is
routed for ip (by the inline write_out call, or by the callback attached
to the apply_async submission for ip). -/
def dispatchResults {ρ : Type} (provider : String → ρ) (hosts : List String) :
    List (String × ρ) :=
  hosts.map (fun ip => (ip, provider ip))

/-- The click default of the commands argument of commit (line 207),
which doubles as the unset sentinel in the validation of line 276. -/
def commandsSentinel : String := "annotate system \"\""

/-- Message raised by the commit handler for no commands and no blank. -/
def commitMsg : String := "--blank and the commands argument cannot both be omitted."

/-- Embedding of the commit handler entry (lines 276-303): the blank and
commands combination is validated before the pool is created or any host
is contacted; an Except.error is the click.BadParameter of line 277. -/
def commitEntry (blank : Bool) (commands : String) (cpu : Nat)
    (hosts : List String) : Except String (List PoolEvent) :=
  if !blank && commands == commandsSentinel then Except.error commitMsg
  else Except.ok (handlerTrace cpu Subcommand.commit hosts)

/-! ## Helper lemmas -/

/-- Totality of the code-point comparison on character lists. -/
theorem charListLe_total : ∀ a b : List Char, charListLe a b = true ∨ charListLe b a = true
  | [], _ => Or.inl rfl
  | _ :: _, [] => Or.inr rfl
  | a :: as, b :: bs => by
    rcases Nat.lt_trichotomy a.toNat b.toNat with h | h | h
    · exact Or.inl (by simp [charListLe, h])
    · have h1 : ¬ a.toNat < b.toNat := by omega
      have h2 : ¬ b.toNat < a.toNat := by omega
      rcases charListLe_total as bs with ih | ih
      · exact Or.inl (by simp [charListLe, h1, h2, ih])
      · exact Or.inr (by simp [charListLe, h1, h2, ih])
    · exact Or.inr (by simp [charListLe, h])

/-- Totality of the Python string order. -/
theorem strLe_total (a b : String) : strLe a b = true ∨ strLe b a = true :=
  charListLe_total a.data b.data

/-- Inserting into a sorted list keeps it sorted. -/
theorem insertSorted_sorted (x : String) :
    ∀ l : List String, isSortedStr l = true → isSortedStr (insertSorted x l) = true
  | [], _ => rfl
  | [y], _ => by
    by_cases hxy : strLe x y = true
    · show isSortedStr (if strLe x y then x :: [y] else y :: insertSorted x []) = true
      rw [if_pos hxy]
      simp only [isSortedStr]
      simp [hxy]
    · have hyx : strLe y x = true := (strLe_total x y).resolve_left hxy
      show isSortedStr (if strLe x y then x :: [y] else y :: insertSorted x []) = true
      rw [if_neg hxy]
      simp only [insertSorted, isSortedStr]
      simp [hyx]
  | y :: z :: t, h => by
    have h2 : (strLe y z && isSortedStr (z :: t)) = true := h
    rcases Bool.and_eq_true_iff.mp h2 with ⟨hyz, hzt⟩
    by_cases hxy : strLe x y = true
    · show isSortedStr (if strLe x y then x :: y :: z :: t else y :: insertSorted x (z :: t)) = true
      rw [if_pos hxy]
      simp only [isSortedStr]
      simp [hxy, hyz, hzt]
    · have hyx : strLe y x = true := (strLe_total x y).resolve_left hxy
      show isSortedStr (if strLe x y then x :: y :: z :: t else y :: insertSorted x (z :: t)) = true
      rw [if_neg hxy]
      by_cases hxz : strLe x z = true
      · show isSortedStr (y :: if strLe x z then x :: z :: t else z :: insertSorted x t) = true
        rw [if_pos hxz]
        simp only [isSortedStr]
        simp [hyx, hxz, hzt]
      · have ih : isSortedStr (insertSorted x (z :: t)) = true :=
          insertSorted_sorted x (z :: t) hzt
        have ih2 : isSortedStr (z :: insertSorted x t) = true := by
          have e : insertSorted x (z :: t) = z :: insertSorted x t := by
            show (if strLe x z then x :: z :: t else z :: insertSorted x t) = _
            rw [if_neg hxz]
          rwa [e] at ih
        show isSortedStr (y :: if strLe x z then x :: z :: t else z :: insertSorted x t) = true
        rw [if_neg hxz]
        simp only [isSortedStr]
        simp [hyz, ih2]

/-- Inserting is a permutation of consing. -/
theorem insertSorted_perm (x : String) :
    ∀ l : List String, List.Perm (insertSorted x l) (x :: l)
  | [] => List.Perm.refl _
  | y :: ys => by
    by_cases h : strLe x y = true
    · show List.Perm (if strLe x y then x :: y :: ys else y :: insertSorted x ys) _
      rw [if_pos h]
    · show List.Perm (if strLe x y then x :: y :: ys else y :: insertSorted x ys) _
      rw [if_neg h]
      exact List.Perm.trans (List.Perm.cons y (insertSorted_perm x ys))
        (List.Perm.swap x y ys)

/-- sortStrings output is sorted. -/
theorem sortStrings_sorted : ∀ l : List String, isSortedStr (sortStrings l) = true
  | [] => rfl
  | x :: xs => insertSorted_sorted x (sortStrings xs) (sortStrings_sorted xs)

/-- sortStrings permutes its input, so it keeps the full candidate list. -/
theorem sortStrings_perm : ∀ l : List String, List.Perm (sortStrings l) l
  | [] => List.Perm.refl _
  | x :: xs =>
    List.Perm.trans (insertSorted_perm x (sortStrings xs))
      (List.Perm.cons x (sortStrings_perm xs))

/-- sortStrings preserves length. -/
theorem sortStrings_length (l : List String) : (sortStrings l).length = l.length :=
  (sortStrings_perm l).length_eq

/-- When the separator does not occur, splitFirst finds nothing — the
list side of Python str.split returning a one-element list. -/
theorem splitFirst_eq_none (sep : List Char) :
    ∀ s : List Char, containsSub sep s = false → splitFirst sep s = none
  | [], h => by
    have hb : beginsWith [] sep = false := by
      simpa [containsSub, searchAnywhere] using h
    simp [splitFirst, hb]
  | c :: cs, h => by
    have h2 : beginsWith (c :: cs) sep = false ∧ containsSub sep cs = false := by
      have h3 : (beginsWith (c :: cs) sep ||
          searchAnywhere (fun t => beginsWith t sep) cs) = false := h
      rcases Bool.or_eq_false_iff.mp h3 with ⟨ha, hb⟩
      exact ⟨ha, hb⟩
    simp [splitFirst, h2.1, splitFirst_eq_none sep cs h2.2]

/-- A payload without the device marker defeats the ip extraction. -/
theorem extractIp_eq_none (output : String)
    (h : containsSub devMarker output.data = false) : extractIp output = none := by
  unfold extractIp
  rw [splitFirst_eq_none devMarker output.data h]

/-- Every per-host loop iteration contacts exactly its own host. -/
theorem eventHost_perHostEvent (s : Subcommand) (h : String) :
    eventHost (perHostEvent s h) = some h := by
  cases s <;> rfl

/-- The per-host section of a handler trace contacts the hosts in order. -/
theorem filterMap_perHostEvent (s : Subcommand) :
    ∀ hosts : List String, (hosts.map (perHostEvent s)).filterMap eventHost = hosts
  | [] => rfl
  | h :: t => by
    simp [List.filterMap_cons, eventHost_perHostEvent, filterMap_perHostEvent s t]

/-- A handler contacts each host of its list exactly once, in order. -/
theorem handlerCalls_eq (cpu : Nat) (s : Subcommand) (hosts : List String) :
    handlerCalls cpu s hosts = hosts := by
  unfold handlerCalls handlerTrace
  rw [List.filterMap_cons]
  simp only [eventHost]
  rw [List.filterMap_append, filterMap_perHostEvent s hosts]
  simp [eventHost]

/-! ## Claim theorems -/

/-- Claim C1: for every subcommand handler and host list of length N, the
device-session provider wrap.open_connection is invoked exactly once for
each host (in list order), producing exactly N results, the i-th paired
with its originating host; zero hosts give an empty call list and zero
results immediately, and one host goes through the same uniform per-host
loop as many (the trace and result list are the same map for every N). -/
theorem dispatch_one_result_per_host {ρ : Type} (cpu : Nat) (s : Subcommand)
    (provider : String → ρ) (hosts : List String) :
    handlerCalls cpu s hosts = hosts ∧
    (dispatchResults provider hosts).length = hosts.length ∧
    (∀ i : Nat, i < hosts.length →
      (dispatchResults provider hosts)[i]? =
        (hosts[i]?).map (fun h => (h, provider h))) ∧
    handlerCalls cpu s [] = [] ∧
    dispatchResults provider ([] : List String) = [] := by
  refine ⟨handlerCalls_eq cpu s hosts, by simp [dispatchResults], ?_,
    handlerCalls_eq cpu s [], rfl⟩
  intro i _
  simp [dispatchResults]

/-- Witness for C1 at a concrete two-host list. -/
theorem dispatch_one_result_per_host_witness :
    handlerCalls 1 Subcommand.compare ["10.0.0.1", "10.0.0.2"] = ["10.0.0.1", "10.0.0.2"] ∧
    (dispatchResults (fun h => h ++ "!") ["10.0.0.1", "10.0.0.2"])[0]? =
      some ("10.0.0.1", "10.0.0.1!") := by
  have H := dispatch_one_result_per_host 1 Subcommand.compare (fun h => h ++ "!")
    ["10.0.0.1", "10.0.0.2"]
  refine ⟨H.1, ?_⟩
  have h3 := H.2.2.1 0 (by decide)
  exact h3.trans rfl

/-- Claim C2 counterexample: the commit handler does not run its per-host
work on the worker pool.  Its loop performs a synchronous inline
write_out(wrap.open_connection(ip, ...)) call in the main process, not an
apply_async submission, so its trace on one host is an inlineCall event
and differs from the pooled trace the claim requires. -/
theorem commit_handler_not_pooled :
    handlerTrace 4 Subcommand.commit ["10.0.0.1"] =
      [PoolEvent.createPool 8, PoolEvent.inlineCall "10.0.0.1",
        PoolEvent.close, PoolEvent.join] ∧
    handlerTrace 4 Subcommand.commit ["10.0.0.1"] ≠
      [PoolEvent.createPool 8, PoolEvent.submit "10.0.0.1",
        PoolEvent.close, PoolEvent.join] :=
  ⟨rfl, by decide⟩

/-- Claim C2 (amended): every handler creates a worker pool bounded at
twice the core count and its trace ends with the close-join barrier, so
the handler returns only after every submitted task has finished; every
subcommand except commit submits one open_connection task per host to
the pool, while commit contacts each host with a synchronous inline call
in the main process (serial execution, its pool left unused). -/
theorem handler_pool_structure (cpu : Nat) (s : Subcommand) (hosts : List String) :
    handlerTrace cpu s hosts =
      (PoolEvent.createPool (cpu * 2) ::
        (hosts.map (perHostEvent s) ++ [PoolEvent.close])) ++ [PoolEvent.join] ∧
    (s ≠ Subcommand.commit →
      handlerTrace cpu s hosts =
        PoolEvent.createPool (cpu * 2) ::
          (hosts.map PoolEvent.submit ++ [PoolEvent.close, PoolEvent.join])) ∧
    handlerTrace cpu Subcommand.commit hosts =
      PoolEvent.createPool (cpu * 2) ::
        (hosts.map PoolEvent.inlineCall ++ [PoolEvent.close, PoolEvent.join]) := by
  refine ⟨by simp [handlerTrace], ?_, rfl⟩
  intro hne
  cases s <;> first
    | exact absurd rfl hne
    | rfl

/-- Witness for the amended C2 at a concrete non-commit subcommand. -/
theorem handler_pool_structure_witness :
    handlerTrace 2 Subcommand.compare ["a"] =
      PoolEvent.createPool 4 ::
        (["a"].map PoolEvent.submit ++ [PoolEvent.close, PoolEvent.join]) :=
  (handler_pool_structure 2 Subcommand.compare ["a"]).2.1 (by decide)

/-- Claim C3 counterexample: two write_out calls with the same file
destination, differing only in the payload text, write to two different
files — the host identity used for the filename is scraped from the
payload (write_out receives no host field at all), contradicting the
claim that it is never re-parsed out of the payload text. -/
theorem write_out_filename_from_payload :
    write_out (fun _ => none) (some ("m", "/tmp/out.txt")) "device: 10.9.9.9\npayload" =
      Except.ok [Effect.fileWrite "/tmp/10.9.9.9_out.txt" "device: 10.9.9.9\npayload",
        Effect.echoMsg "10.9.9.9 output appended to: /tmp/10.9.9.9_out.txt"] ∧
    write_out (fun _ => none) (some ("m", "/tmp/out.txt")) "device: 10.8.8.8\npayload" =
      Except.ok [Effect.fileWrite "/tmp/10.8.8.8_out.txt" "device: 10.8.8.8\npayload",
        Effect.echoMsg "10.8.8.8 output appended to: /tmp/10.8.8.8_out.txt"] ∧
    ("/tmp/10.9.9.9_out.txt" : String) ≠ "/tmp/10.8.8.8_out.txt" :=
  ⟨rfl, rfl, by decide⟩

/-- Claim C3 (amended): the host identity used to derive the output
filename is re-parsed out of the payload text — it is the text after the
first occurrence of the marker device-colon-space, truncated at the next
newline (or next marker) and stripped of whitespace — because the tuple
write_out receives carries no host field of its own. -/
theorem write_out_identity_reparsed (openRes : String → Option String)
    (mode dest output ip : String) (hip : extractIp output = some ip)
    (hopen : openRes (destFor mode dest ip) = none) :
    write_out openRes (some (mode, dest)) output =
      Except.ok [Effect.fileWrite (destFor mode dest ip) output,
        Effect.echoMsg (ip ++ " output appended to: " ++ destFor mode dest ip)] ∧
    extractIp "device: 10.0.0.7 \nrest" = some "10.0.0.7" ∧
    extractIp "no such marker" = none := by
  refine ⟨?_, rfl, rfl⟩
  simp [write_out, hip, hopen]

/-- Witness for the amended C3 at a concrete single-file call. -/
theorem write_out_identity_reparsed_witness :
    write_out (fun _ => none) (some ("s", "/tmp/o.txt")) "device: hostA\nY" =
      Except.ok [Effect.fileWrite "/tmp/o.txt" "device: hostA\nY",
        Effect.echoMsg "hostA output appended to: /tmp/o.txt"] := by
  have H := write_out_identity_reparsed (fun _ => none) "s" "/tmp/o.txt"
    "device: hostA\nY" "hostA" rfl rfl
  exact H.1.trans rfl

/-- Claim C4: the command-name resolver returns an exact match when one
exists; otherwise the registered names starting with the prefix decide
the outcome — none gives NotFound, exactly one resolves to that name,
and more than one fails with the full candidate list (a permutation of
all matches) sorted lexicographically; on names commit, compare, health
the prefix com is ambiguous between commit and compare, hea resolves to
health, and xyz is NotFound. -/
theorem get_command_resolution (reg : List String) (cmd : String) :
    (reg.contains cmd = true → get_command reg cmd = Resolved.found cmd) ∧
    (reg.contains cmd = false →
      (prefMatches reg cmd = [] → get_command reg cmd = Resolved.notFound) ∧
      (∀ m : String, prefMatches reg cmd = [m] →
        get_command reg cmd = Resolved.found m)) ∧
    (∀ ms : List String, get_command reg cmd = Resolved.ambiguous ms →
      isSortedStr ms = true ∧ 2 ≤ ms.length ∧ List.Perm ms (prefMatches reg cmd)) ∧
    get_command ["commit", "compare", "health"] "com" =
      Resolved.ambiguous ["commit", "compare"] ∧
    get_command ["commit", "compare", "health"] "hea" = Resolved.found "health" ∧
    get_command ["commit", "compare", "health"] "xyz" = Resolved.notFound := by
  refine ⟨?_, ?_, ?_, rfl, rfl, rfl⟩
  · intro h
    unfold get_command
    rw [if_pos h]
  · intro h
    have hcn : ¬ reg.contains cmd = true := by
      rw [h]
      decide
    constructor
    · intro hm
      unfold get_command
      rw [if_neg hcn, hm]
    · intro m hm
      unfold get_command
      rw [if_neg hcn, hm]
  · intro ms hms
    by_cases h : reg.contains cmd = true
    · unfold get_command at hms
      rw [if_pos h] at hms
      exact absurd hms (by simp)
    · rcases hem : prefMatches reg cmd with _ | ⟨a, _ | ⟨b, t⟩⟩
      · unfold get_command at hms
        rw [if_neg h, hem] at hms
        exact absurd hms (by simp)
      · unfold get_command at hms
        rw [if_neg h, hem] at hms
        exact absurd hms (by simp)
      · unfold get_command at hms
        rw [if_neg h, hem] at hms
        injection hms with hms2
        refine ⟨?_, ?_, ?_⟩
        · rw [← hms2]
          exact sortStrings_sorted _
        · rw [← hms2, sortStrings_length]
          simp [List.length_cons]
        · rw [← hms2]
          exact sortStrings_perm _

/-- Witness for C4: an exact match and an empty-candidate miss. -/
theorem get_command_resolution_witness :
    get_command ["commit", "compare", "health"] "commit" = Resolved.found "commit" ∧
    get_command ["health"] "hx" = Resolved.notFound := by
  constructor
  · exact (get_command_resolution ["commit", "compare", "health"] "commit").1 (by decide)
  · exact ((get_command_resolution ["health"] "hx").2.1 (by decide)).1 (by decide)

/-- Claim C5: evaluation of the time-window validator.  The four formats
of the claim are accepted and 2pm and 14-30 are rejected, but the code
also accepts 01-05 14:30 — the re.search calls are unanchored, so any
string containing an embedded hh:mm hit passes — contradicting the
claim (and the error text of the validator itself), which requires
01-05 14:30 to be rejected. -/
theorem at_time_validate_eval :
    at_time_validate (some "01-05 14:30") = Except.ok (some "01-05 14:30") ∧
    at_time_validate (some "14:30") = Except.ok (some "14:30") ∧
    at_time_validate (some "14:30:00") = Except.ok (some "14:30:00") ∧
    at_time_validate (some "2024-01-05 14:30") = Except.ok (some "2024-01-05 14:30") ∧
    at_time_validate (some "2024-01-05 14:30:45") =
      Except.ok (some "2024-01-05 14:30:45") ∧
    at_time_validate (some "2pm") = Except.error atTimeMsg ∧
    at_time_validate (some "14-30") = Except.error atTimeMsg ∧
    at_time_validate none = Except.ok none :=
  ⟨rfl, rfl, rfl, rfl, rfl, rfl, rfl, rfl⟩

/-- Claim C6 counterexample: the values write_validate normalizes
("s", path) and ("single", path) to are not identical — the stored mode
keeps the alias spelling — so the two inputs do not normalize
identically as the claim states (they only route identically later). -/
theorem write_validate_aliases_not_identical :
    write_validate ("s", "/tmp/out.txt") = Except.ok (some ("s", "/tmp/out.txt")) ∧
    write_validate ("single", "/tmp/out.txt") =
      Except.ok (some ("single", "/tmp/out.txt")) ∧
    write_validate ("s", "/tmp/out.txt") ≠ write_validate ("single", "/tmp/out.txt") := by
  refine ⟨rfl, rfl, ?_⟩
  intro hEq
  have h2 : (some (("s" : String), ("/tmp/out.txt" : String)) : Option (String × String)) =
      some ("single", "/tmp/out.txt") := by
    injection hEq
  exact absurd h2 (by decide)

/-- Claim C6 (amended): the mode is matched case-insensitively against
the aliases s, single, m, multiple; ("s", path) and ("single", path) are
both accepted and both select the non-multiple (single-file) routing
branch, though their stored normalized values differ in the mode string;
any other mode raises the parameter error, and omitting the option (the
default sentinel) selects console output. -/
theorem write_validate_spec (mode p : String)
    (hnd : (mode, p) ≠ ("default", "default")) :
    (["s", "single", "m", "multiple"].contains (pyLower mode) = true →
      write_validate (mode, p) = Except.ok (some (pyLower mode, p))) ∧
    (["s", "single", "m", "multiple"].contains (pyLower mode) = false →
      write_validate (mode, p) = Except.error writeModeMsg) ∧
    write_validate ("default", "default") = Except.ok none ∧
    multipleMode "s" = false ∧ multipleMode "single" = false ∧
    multipleMode "m" = true ∧ multipleMode "multiple" = true ∧
    pyLower "S" = pyLower "s" := by
  refine ⟨?_, ?_, rfl, rfl, rfl, rfl, rfl, rfl⟩
  · intro h
    have hcn : ¬ (["s", "single", "m", "multiple"].contains (pyLower (mode, p).1)) = false := by
      have h2 : (["s", "single", "m", "multiple"].contains (pyLower (mode, p).1)) = true := h
      rw [h2]
      decide
    unfold write_validate
    rw [if_pos hnd, if_neg hcn]
  · intro h
    unfold write_validate
    rw [if_pos hnd, if_pos h]

/-- Witness for the amended C6: a case-insensitive accept and a reject. -/
theorem write_validate_spec_witness :
    write_validate ("Single", "/tmp/x") = Except.ok (some ("single", "/tmp/x")) ∧
    write_validate ("bogus", "/tmp/out.txt") = Except.error writeModeMsg := by
  constructor
  · have H := (write_validate_spec "Single" "/tmp/x" (by decide)).1 (by decide)
    exact H.trans rfl
  · exact (write_validate_spec "bogus" "/tmp/out.txt" (by decide)).2.1 (by decide)

/-- Claim C7: under multiple-file mode the written path is derived from
the base path by inserting the extracted host identity plus an
underscore immediately before the base filename component; base path
/tmp/out.txt with host 10.0.0.2 yields /tmp/10.0.0.2_out.txt (for both
mode aliases). -/
theorem write_out_multiple_mode_path (openRes : String → Option String)
    (dest output ip : String) (hip : extractIp output = some ip)
    (hopen : openRes (destFor "m" dest ip) = none) :
    write_out openRes (some ("m", dest)) output =
      Except.ok
        [Effect.fileWrite
          (posixJoin (posixSplit dest).1 (ip ++ "_" ++ (posixSplit dest).2)) output,
         Effect.echoMsg (ip ++ " output appended to: " ++
          posixJoin (posixSplit dest).1 (ip ++ "_" ++ (posixSplit dest).2))] ∧
    destFor "m" "/tmp/out.txt" "10.0.0.2" = "/tmp/10.0.0.2_out.txt" ∧
    destFor "multiple" "/tmp/out.txt" "10.0.0.2" = "/tmp/10.0.0.2_out.txt" := by
  have e : destFor "m" dest ip =
      posixJoin (posixSplit dest).1 (ip ++ "_" ++ (posixSplit dest).2) := by
    simp [destFor, show multipleMode "m" = true from rfl]
  rw [e] at hopen
  refine ⟨?_, rfl, rfl⟩
  simp [write_out, hip, e, hopen]

/-- Witness for C7 writing one host to its derived per-host file. -/
theorem write_out_multiple_mode_path_witness :
    write_out (fun _ => none) (some ("m", "/tmp/out.txt")) "device: 10.0.0.2\nX" =
      Except.ok [Effect.fileWrite "/tmp/10.0.0.2_out.txt" "device: 10.0.0.2\nX",
        Effect.echoMsg "10.0.0.2 output appended to: /tmp/10.0.0.2_out.txt"] := by
  have H := write_out_multiple_mode_path (fun _ => none) "/tmp/out.txt"
    "device: 10.0.0.2\nX" "10.0.0.2" rfl rfl
  exact H.1.trans rfl

/-- Claim C8: when the destination file cannot be opened, write_out
catches the IOError and reports the failure on the console with the
original payload embedded in the report, performs no file write, and
returns normally — the payload is not silently dropped and the write
failure never escalates to an invocation failure. -/
theorem write_out_open_failure_fallback (openRes : String → Option String)
    (mode dest output ip e : String) (hip : extractIp output = some ip)
    (hfail : openRes (destFor mode dest ip) = some e) :
    write_out openRes (some (mode, dest)) output =
      Except.ok
        [Effect.echoErr ("Could not open output file \x27" ++ destFor mode dest ip ++
          "\x27 for writing. Output would have been:\n" ++ output),
         Effect.echoErr ("Here is the error for opening the output file:" ++ e)] := by
  simp [write_out, hip, hfail]

/-- Witness for C8 with a concrete failing open. -/
theorem write_out_open_failure_fallback_witness :
    write_out (fun _ => some "disk full") (some ("s", "/tmp/o.txt")) "device: h9\nZ" =
      Except.ok
        [Effect.echoErr
          "Could not open output file \x27/tmp/o.txt\x27 for writing. Output would have been:\ndevice: h9\nZ",
         Effect.echoErr "Here is the error for opening the output file:disk full"] := by
  have H := write_out_open_failure_fallback (fun _ => some "disk full") "s" "/tmp/o.txt"
    "device: h9\nZ" "h9" "disk full" rfl rfl
  exact H.trans rfl

/-- Claim C9: a commit invocation with blank false and the commands
argument still equal to the unset sentinel raises the parameter error
before the pool is created or any host is contacted — the handler
returns the error and produces no pool trace at all. -/
theorem commit_blank_sentinel_rejected (cpu : Nat) (hosts : List String) :
    commitEntry false commandsSentinel cpu hosts = Except.error commitMsg := rfl

/-- Claim C10: a write_out call routed to a file whose payload does not
contain the marker device-colon-space raises an uncaught IndexError
while extracting the host identity; the exception escapes before any
file or console write, so the payload is emitted nowhere. -/
theorem write_out_missing_marker_raises (openRes : String → Option String)
    (mode dest output : String) (h : containsSub devMarker output.data = false) :
    write_out openRes (some (mode, dest)) output = Except.error PyError.indexError := by
  unfold write_out
  rw [extractIp_eq_none output h]

/-- Witness for C10 on a markerless payload. -/
theorem write_out_missing_marker_raises_witness :
    write_out (fun _ => none) (some ("s", "/tmp/o.txt")) "plain output" =
      Except.error PyError.indexError :=
  write_out_missing_marker_raises (fun _ => none) "s" "/tmp/o.txt" "plain output"
    (by decide)

end Jaide
